import Mathlib

/-!
Shallow embedding of `build_janudul.py`: a GTFS departure-board generator.
The embedded core covers the Service Activation Resolver
(`active_service_ids`), the Stop & Route Filter (`stopIdSet`,
`allowedRouteIds`), and the Departure Enumerator (`collect`, `enumerator`,
`run`).  Machine-level conventions:

* Python `date` objects become the `Date` structure with Python's
  proleptic-Gregorian `toordinal` and `weekday` (Monday = 0).
* Python `datetime` instants become wall-clock second counts
  `toordinal * 86400 + seconds`; the script only does wall-clock
  arithmetic (`midnight + timedelta(seconds=...)`) in one fixed timezone,
  and its ISO-8601 sort key is strictly monotone in this count, so
  sorting by the count is sorting by the source's `timestamp` string.
* Uncaught Python exceptions (`SystemExit`, `ValueError` from `int` or
  `strptime`) become `Except.error` / `Option.none` results.
-/

/-- One row of `stops.txt`: the two fields the script reads. -/
structure StopRow where
  stop_id : String
  stop_name : String
deriving DecidableEq

/-- One row of `stop_times.txt`.  Fields the script indexes directly are
`String`; `stop_sequence` is accessed with `.get(…, "")`, hence `Option`. -/
structure StopTimeRow where
  trip_id : String
  stop_id : String
  departure_time : String
  stop_sequence : Option String
deriving DecidableEq

/-- One row of `trips.txt`. -/
structure TripRow where
  trip_id : String
  route_id : String
  service_id : String
  trip_headsign : Option String
  direction_id : Option String
deriving DecidableEq

/-- One row of `routes.txt`; all optional fields are read with `.get`. -/
structure RouteRow where
  route_id : String
  route_type : Option String
  route_short_name : Option String
  route_long_name : Option String
deriving DecidableEq

/-- One row of `calendar.txt`. -/
structure CalendarRow where
  service_id : String
  start_date : String
  end_date : String
  monday : String
  tuesday : String
  wednesday : String
  thursday : String
  friday : String
  saturday : String
  sunday : String
deriving DecidableEq

/-- One row of `calendar_dates.txt`. -/
structure CalendarDateRow where
  service_id : String
  date : String
  exception_type : String
deriving DecidableEq

/-- A civil calendar date, as Python's `datetime.date`. -/
structure Date where
  year : Nat
  month : Nat
  day : Nat
deriving DecidableEq

/-- Gregorian leap-year test (as Python's `calendar.isleap`). -/
def isLeap (y : Nat) : Bool :=
  y % 4 == 0 && (y % 100 != 0 || y % 400 == 0)

/-- Days in a month of a given year (0 for an invalid month index). -/
def daysInMonth (y m : Nat) : Nat :=
  match m with
  | 1 => 31
  | 2 => if isLeap y then 29 else 28
  | 3 => 31
  | 4 => 30
  | 5 => 31
  | 6 => 30
  | 7 => 31
  | 8 => 31
  | 9 => 30
  | 10 => 31
  | 11 => 30
  | 12 => 31
  | _ => 0

/-- Days in year `y` strictly before month `m`. -/
def daysBeforeMonth (y : Nat) : Nat → Nat
  | 0 => 0
  | 1 => 0
  | m + 1 => daysBeforeMonth y m + daysInMonth y m

/-- Python's `date.toordinal`: day count in the proleptic Gregorian
calendar with `0001-01-01` as day 1. -/
def Date.toordinal (d : Date) : Nat :=
  let y := d.year - 1
  365 * y + y / 4 - y / 100 + y / 400 + daysBeforeMonth d.year d.month + d.day

/-- Python's `date.weekday`: Monday = 0 … Sunday = 6. -/
def Date.weekday (d : Date) : Nat :=
  (d.toordinal + 6) % 7

/-- Python's `date` ordering (lexicographic on year, month, day). -/
def dateLe (a b : Date) : Bool :=
  a.year < b.year ||
    (a.year == b.year &&
      (a.month < b.month || (a.month == b.month && a.day ≤ b.day)))

/-- Decimal value of a digit list (most significant first). -/
def digitsToNat (cs : List Char) : Nat :=
  cs.foldl (fun a c => a * 10 + (c.toNat - 48)) 0

/-- Models `datetime.strptime(s, "%Y%m%d").date()` on the eight-character
inputs GTFS supplies: four digit year, two digit month, two digit day,
validated exactly as CPython validates them when constructing the `date`
(month 1–12, day within the month, year ≥ 1).  `none` models the
`ValueError` that `strptime` raises on anything else. -/
def parseDate (s : String) : Option Date :=
  let cs := s.toList
  if cs.length = 8 ∧ cs.all Char.isDigit then
    let y := digitsToNat (cs.take 4)
    let m := digitsToNat ((cs.drop 4).take 2)
    let d := digitsToNat (cs.drop 6)
    if 1 ≤ y ∧ 1 ≤ m ∧ m ≤ 12 ∧ 1 ≤ d ∧ d ≤ daysInMonth y m then
      some ⟨y, m, d⟩
    else none
  else none

/-- The flag field `row[weekday_cols[w]]` for weekday index `w`
(`weekday_cols = ["monday", …, "sunday"]`). -/
def weekdayFlag (row : CalendarRow) (w : Nat) : String :=
  match w with
  | 0 => row.monday
  | 1 => row.tuesday
  | 2 => row.wednesday
  | 3 => row.thursday
  | 4 => row.friday
  | 5 => row.saturday
  | 6 => row.sunday
  | _ => ""

/-- Pass 1 of `active_service_ids`: fold the `calendar` rows, inserting
`service_id` whenever the date range contains `today` and today's weekday
flag is the string `"1"`.  `none` models a `strptime` failure aborting
the computation. -/
def calendarActive : List CalendarRow → Date → Finset String → Option (Finset String)
  | [], _, acc => some acc
  | row :: rest, today, acc =>
    match parseDate row.start_date, parseDate row.end_date with
    | some s, some e =>
      let acc' :=
        if dateLe s today && dateLe today e && weekdayFlag row today.weekday == "1" then
          insert row.service_id acc
        else acc
      calendarActive rest today acc'
    | _, _ => none

/-- Pass 2 of `active_service_ids`: fold the `calendar_dates` rows; a row
dated exactly `today` with `exception_type = "1"` inserts its service id,
one with `exception_type = "2"` removes it if present, and any other
exception type is ignored.  `none` models a `strptime` failure. -/
def applyExceptions : List CalendarDateRow → Date → Finset String → Option (Finset String)
  | [], _, acc => some acc
  | cd :: rest, today, acc =>
    match parseDate cd.date with
    | some d =>
      let acc' :=
        if d = today then
          if cd.exception_type = "1" then
            insert cd.service_id acc
          else if cd.exception_type = "2" ∧ cd.service_id ∈ acc then
            acc.erase cd.service_id
          else acc
        else acc
      applyExceptions rest today acc'
    | none => none

/-- `active_service_ids(calendar, calendar_dates, today)`: the set of
service identifiers active on `today`. -/
def active_service_ids (calendar : List CalendarRow)
    (calendar_dates : List CalendarDateRow) (today : Date) :
    Option (Finset String) :=
  (calendarActive calendar today ∅).bind (applyExceptions calendar_dates today)

/-- `leadMatch q l` is true iff the character list `q` begins `l`. -/
def leadMatch : List Char → List Char → Bool
  | [], _ => true
  | _ :: _, [] => false
  | a :: as, b :: bs => a == b && leadMatch as bs

/-- Python's substring operator `q in l` on character lists: `q` occurs
contiguously somewhere in `l`. -/
def hasSubList (q : List Char) : List Char → Bool
  | [] => q.isEmpty
  | c :: rest => leadMatch q (c :: rest) || hasSubList q rest

/-- Python's `str.lower` on the character repertoire this feed uses:
ASCII letters plus the uppercase Czech diacritic letters, mapped to
their Unicode lowercase forms exactly as `str.lower` maps them. -/
def pyLowerChar (c : Char) : Char :=
  if 'A' ≤ c ∧ c ≤ 'Z' then Char.ofNat (c.toNat + 32)
  else if c = 'Á' then 'á'
  else if c = 'Č' then 'č'
  else if c = 'Ď' then 'ď'
  else if c = 'É' then 'é'
  else if c = 'Ě' then 'ě'
  else if c = 'Í' then 'í'
  else if c = 'Ň' then 'ň'
  else if c = 'Ó' then 'ó'
  else if c = 'Ř' then 'ř'
  else if c = 'Š' then 'š'
  else if c = 'Ť' then 'ť'
  else if c = 'Ú' then 'ú'
  else if c = 'Ů' then 'ů'
  else if c = 'Ý' then 'ý'
  else if c = 'Ž' then 'ž'
  else c

/-- `query.lower() in name.lower()`: case-insensitive substring test,
with diacritics compared literally. -/
def nameMatches (query name : String) : Bool :=
  hasSubList (query.toList.map pyLowerChar) (name.toList.map pyLowerChar)

/-- The resolved stop-identifier set
`{s["stop_id"] for s in stops if STOP_NAME.lower() in s["stop_name"].lower()}`. -/
def stopIdSet (stops : List StopRow) (query : String) : Finset String :=
  ((stops.filter (fun s => nameMatches query s.stop_name)).map
    (fun s => s.stop_id)).toFinset

/-- The tram allow-set
`{r["route_id"] for r in routes if r.get("route_type") == "0"}`,
built only when mode filtering is on; `none` is "unrestricted". -/
def allowedRouteIds (routes : List RouteRow) (only_tram : Bool) :
    Option (Finset String) :=
  if only_tram then
    some ((routes.filter (fun r => r.route_type == some ("0"))).map
      (fun r => r.route_id)).toFinset
  else none

/-- Lookup in `trips_by_id = {t["trip_id"]: t for t in trips}`: a dict
comprehension keeps the last row with a given key. -/
def lookupTrip (trips : List TripRow) (k : String) : Option TripRow :=
  trips.reverse.find? (fun t => t.trip_id == k)

/-- Lookup in `routes_by_id = {r["route_id"]: r for r in routes}`. -/
def lookupRoute (routes : List RouteRow) (k : String) : Option RouteRow :=
  routes.reverse.find? (fun r => r.route_id == k)

/-- Python's single-character `str.split`: `splitChar sep cs` cuts `cs`
at every occurrence of `sep`, keeping empty pieces. -/
def splitChar (sep : Char) : List Char → List (List Char)
  | [] => [[]]
  | c :: rest =>
    let r := splitChar sep rest
    if c = sep then [] :: r
    else
      match r with
      | [] => [[c]]
      | h :: t => (c :: h) :: t

/-- Python's `int(str)` on a character list: an optional sign followed by
at least one decimal digit.  (The whitespace and underscore forms `int`
also accepts never appear in GTFS time fields and are not modelled.)
`none` models the `ValueError` `int` raises otherwise. -/
def pyIntChars : List Char → Option Int
  | '-' :: rest =>
    if rest ≠ [] ∧ rest.all Char.isDigit then some (-(digitsToNat rest : Int))
    else none
  | '+' :: rest =>
    if rest ≠ [] ∧ rest.all Char.isDigit then some ((digitsToNat rest : Int))
    else none
  | cs =>
    if cs ≠ [] ∧ cs.all Char.isDigit then some ((digitsToNat cs : Int))
    else none

/-- `to_seconds(hhmmss)`: split on `":"`, unpack exactly three pieces,
convert each with `int`, and return `h*3600 + m*60 + s`.  `none` models
the uncaught `ValueError` when a piece is not an integer or the unpack
fails (the script calls this only after its length-8/contains-colon
guard, which does not rule either failure out). -/
def to_seconds (hhmmss : String) : Option Int :=
  match splitChar ':' hhmmss.toList with
  | [a, b, c] =>
    match pyIntChars a, pyIntChars b, pyIntChars c with
    | some h, some m, some s => some (h * 3600 + m * 60 + s)
    | _, _, _ => none
  | _ => none

/-- The guard `if active_sids and trip["service_id"] not in active_sids:
continue` — a nonempty set is truthy in Python. -/
def service_skip (active : Finset String) (sid : String) : Bool :=
  decide (active ≠ ∅) && decide (sid ∉ active)

/-- The guard `if allowed_route_ids is not None and trip["route_id"] not
in allowed_route_ids: continue`. -/
def routeSkip (allowed : Option (Finset String)) (rid : String) : Bool :=
  match allowed with
  | none => false
  | some a => decide (rid ∉ a)

/-- Zero-padded two-digit decimal rendering, as `strftime` pads `%H`/`%M`. -/
def pad2 (n : Nat) : String :=
  if n < 10 then "0" ++ toString n else toString n

/-- `dep_dt.strftime("%H:%M")` for the instant `ts` (wall-clock seconds):
hour and minute of the second-of-day `ts % 86400`. -/
def timeLabel (ts : Int) : String :=
  let sec := (ts % 86400).toNat
  pad2 (sec / 3600) ++ ":" ++ pad2 ((sec % 3600) / 60)

/-- One output record of the Departure Enumerator (the dict appended to
`results`); `timestamp` is the absolute instant in wall-clock seconds,
standing for the ISO-8601 string the script stores (strictly monotone in
it under the fixed timezone offset). -/
structure Departure where
  time : String
  timestamp : Int
  route_short_name : String
  route_long_name : String
  headsign : String
  direction_id : String
  stop_id : String
  stop_sequence : String
deriving DecidableEq

/-- `route.get(field, "")` after `routes_by_id.get(trip["route_id"], {})`:
empty string when either the route lookup or the field is missing. -/
def routeField (route : Option RouteRow) (f : RouteRow → Option String) : String :=
  match route with
  | some r => (f r).getD ""
  | none => ""

/-- The per-invocation context of the Departure Enumerator loop: the
resolved stop set, the lookup tables, the active-service set, the route
allow-set, today's civil midnight and the reference instant `now`, both
as wall-clock second counts. -/
structure Env where
  stop_ids : Finset String
  trips : List TripRow
  routes : List RouteRow
  active : Finset String
  allowed : Option (Finset String)
  midnight : Int
  now : Int
deriving DecidableEq

/-- One iteration of the `for st in stop_times` loop: `.ok none` is
`continue`, `.ok (some d)` appends `d` to `results`, and `.error`
models the uncaught `ValueError` from `to_seconds`. -/
def processStop (e : Env) (st : StopTimeRow) : Except String (Option Departure) :=
  if st.stop_id ∉ e.stop_ids then .ok none
  else
    match lookupTrip e.trips st.trip_id with
    | none => .ok none
    | some trip =>
      if service_skip e.active trip.service_id then .ok none
      else if routeSkip e.allowed trip.route_id then .ok none
      else if st.departure_time.length ≠ 8 ∨
          ¬ st.departure_time.toList.contains ':' then .ok none
      else
        match to_seconds st.departure_time with
        | none => .error ("ValueError: " ++ st.departure_time)
        | some dep_sec =>
          if e.midnight + dep_sec ≥ e.now then
            .ok (some
              { time := timeLabel (e.midnight + dep_sec)
                timestamp := e.midnight + dep_sec
                route_short_name :=
                  routeField (lookupRoute e.routes trip.route_id)
                    (fun r => r.route_short_name)
                route_long_name :=
                  routeField (lookupRoute e.routes trip.route_id)
                    (fun r => r.route_long_name)
                headsign := trip.trip_headsign.getD ""
                direction_id := trip.direction_id.getD ""
                stop_id := st.stop_id
                stop_sequence := st.stop_sequence.getD "" })
          else .ok none

/-- The whole `for st in stop_times` loop: the `results` list in order,
or the first uncaught exception. -/
def collect (e : Env) : List StopTimeRow → Except String (List Departure)
  | [] => .ok []
  | st :: rest =>
    match processStop e st with
    | .error msg => .error msg
    | .ok none => collect e rest
    | .ok (some d) =>
      match collect e rest with
      | .error msg => .error msg
      | .ok ds => .ok (d :: ds)

deriving instance DecidableEq for Except

/-- The comparison behind `results.sort(key=lambda r: r["timestamp"])`:
non-decreasing absolute instant. -/
def depLe (a b : Departure) : Prop :=
  a.timestamp ≤ b.timestamp

instance : DecidableRel depLe := fun a b => Int.decLe a.timestamp b.timestamp

instance : IsTotal Departure depLe :=
  ⟨fun a b => Int.le_total a.timestamp b.timestamp⟩

instance : IsTrans Departure depLe :=
  ⟨fun _ _ _ h h' => Int.le_trans h h'⟩

/-- The Departure Enumerator: run the loop, then
`results.sort(...)` and `results[:max_results]`.  Python's sort is a
stable sort; `List.insertionSort` is the stable sort used here. -/
def enumerator (e : Env) (stop_times : List StopTimeRow) (max_results : Nat) :
    Except String (List Departure) :=
  match collect e stop_times with
  | .error msg => .error msg
  | .ok results => .ok ((results.insertionSort depLe).take max_results)

/-- `STOP_NAME` from the script. -/
def STOP_NAME : String := "Janův důl"

/-- `ONLY_TRAM` from the script. -/
def ONLY_TRAM : Bool := true

/-- `MAX_RESULTS` from the script. -/
def MAX_RESULTS : Nat := 14

/-- The core of `main` after the tables are loaded, with the
configuration constants and the reference instant passed explicitly:
resolve the stop set (fatal `SystemExit` naming the query when empty),
resolve the active services (fatal on a malformed calendar date), build
the route allow-set, and enumerate the departures.  `today` is the civil
date of `now` and `nowSec` the seconds elapsed since its midnight. -/
def run (stops : List StopRow) (stop_times : List StopTimeRow)
    (trips : List TripRow) (routes : List RouteRow)
    (calendar : List CalendarRow) (calendar_dates : List CalendarDateRow)
    (today : Date) (nowSec : Int) (stop_name : String) (only_tram : Bool)
    (max_results : Nat) : Except String (List Departure) :=
  let stop_ids := stopIdSet stops stop_name
  if stop_ids = ∅ then
    .error ("Nenalezeny žádné stop_id pro " ++ stop_name ++ ".")
  else
    match active_service_ids calendar calendar_dates today with
    | none => .error ("ValueError: calendar date")
    | some active =>
      let allowed := allowedRouteIds routes only_tram
      let midnight : Int := (Date.toordinal today : Int) * 86400
      enumerator
        ⟨stop_ids, trips, routes, active, allowed, midnight, midnight + nowSec⟩
        stop_times max_results

/-- Specification-side reading of pass 2, used to state the
exception-override claims: the last `calendar_dates` row in table order
that is dated exactly `today`, names `sid`, and has exception type `"1"`
or `"2"`, rendered as `some true` (add) / `some false` (remove); `none`
when no such row exists. -/
def lastOverride : List CalendarDateRow → Date → String → Option Bool
  | [], _, _ => none
  | cd :: rest, today, sid =>
    match lastOverride rest today sid with
    | some b => some b
    | none =>
      if parseDate cd.date = some today ∧ cd.service_id = sid then
        if cd.exception_type = "1" then some true
        else if cd.exception_type = "2" then some false
        else none
      else none

/-- Membership after pass 2 is decided by the last overriding exception
row when there is one, and by the pass-1 set otherwise. -/
theorem applyExceptions_mem (today : Date) (sid : String) :
    ∀ (cds : List CalendarDateRow) (acc A : Finset String),
      applyExceptions cds today acc = some A →
      (sid ∈ A ↔ (lastOverride cds today sid = some true ∨
        (lastOverride cds today sid = none ∧ sid ∈ acc))) := by
  intro cds
  induction cds with
  | nil =>
    intro acc A h
    simp only [applyExceptions, Option.some.injEq] at h
    subst h
    simp [lastOverride]
  | cons cd rest ih =>
    intro acc A h
    simp only [applyExceptions] at h
    cases hp : parseDate cd.date with
    | none => rw [hp] at h; exact absurd h (by simp)
    | some d =>
      rw [hp] at h
      have hih := ih _ A h
      cases hlo : lastOverride rest today sid with
      | some b =>
        rw [hlo] at hih
        rw [hih]
        simp [lastOverride, hlo]
      | none =>
        rw [hlo] at hih
        simp only [Option.some.injEq, false_and, false_or, true_and,
          reduceCtorEq] at hih
        rw [hih]
        by_cases hd : d = today
        · subst hd
          by_cases hs : cd.service_id = sid
          · by_cases h1 : cd.exception_type = "1"
            · simp [lastOverride, hlo, hp, hs, h1, Finset.mem_insert]
            · by_cases h2 : cd.exception_type = "2"
              · subst hs
                by_cases hmem : cd.service_id ∈ acc
                · simp [lastOverride, hlo, hp, h1, h2, hmem]
                · simp [lastOverride, hlo, hp, h1, h2, hmem]
              · simp [lastOverride, hlo, hp, hs, h1, h2]
          · by_cases h1 : cd.exception_type = "1"
            · simp [lastOverride, hlo, hp, hs, h1, Finset.mem_insert, Ne.symm hs]
            · by_cases h2 : cd.exception_type = "2"
              · by_cases hmem : cd.service_id ∈ acc
                · simp [lastOverride, hlo, hp, hs, h1, h2, hmem,
                    Finset.mem_erase, Ne.symm hs]
                · simp [lastOverride, hlo, hp, hs, h1, h2, hmem]
              · simp [lastOverride, hlo, hp, hs, h1, h2]
        · simp [lastOverride, hlo, hp, hd, fun h => hd (Option.some.inj h)]

/-- If no row is dated today with this service id, nothing overrides. -/
theorem lastOverride_eq_none (today : Date) (sid : String) :
    ∀ (cds : List CalendarDateRow),
      (∀ cd ∈ cds, ¬(parseDate cd.date = some today ∧ cd.service_id = sid)) →
      lastOverride cds today sid = none := by
  intro cds
  induction cds with
  | nil => intro _; rfl
  | cons cd rest ih =>
    intro hno
    have hrest := ih (fun c hc => hno c (List.mem_cons_of_mem cd hc))
    have hhd := hno cd (List.mem_cons_self cd rest)
    simp [lastOverride, hrest, hhd]

/-- When exactly one row is dated today with this service id, that row
alone decides `lastOverride`. -/
theorem lastOverride_of_unique (today : Date) (sid : String) :
    ∀ (cds : List CalendarDateRow) (cd : CalendarDateRow), cd ∈ cds →
      parseDate cd.date = some today → cd.service_id = sid →
      (∀ cd' ∈ cds, parseDate cd'.date = some today → cd'.service_id = sid → cd' = cd) →
      lastOverride cds today sid =
        (if cd.exception_type = "1" then some true
         else if cd.exception_type = "2" then some false
         else none) := by
  intro cds
  induction cds with
  | nil => intro cd h; exact absurd h (List.not_mem_nil cd)
  | cons x rest ih =>
    intro cd hmem hp hs huniq
    by_cases hr : cd ∈ rest
    · have hrest := ih cd hr hp hs
        (fun c hc h1 h2 => huniq c (List.mem_cons_of_mem x hc) h1 h2)
      by_cases h1 : cd.exception_type = "1"
      · simp [lastOverride, hrest, h1]
      · by_cases h2 : cd.exception_type = "2"
        · simp [lastOverride, hrest, h1, h2]
        · rw [if_neg h1, if_neg h2] at hrest
          by_cases hxr : parseDate x.date = some today ∧ x.service_id = sid
          · have hxcd : x = cd := huniq x (List.mem_cons_self x rest) hxr.1 hxr.2
            simp [lastOverride, hrest, hxr, hxcd, h1, h2]
          · simp [lastOverride, hrest, hxr, h1, h2]
    · have hcd : cd = x := by
        rcases List.mem_cons.mp hmem with h | h
        · exact h
        · exact absurd h hr
      subst hcd
      have hrest : lastOverride rest today sid = none := by
        apply lastOverride_eq_none
        intro c hc hcr
        exact hr (huniq c (List.mem_cons_of_mem cd hc) hcr.1 hcr.2 ▸ hc)
      simp [lastOverride, hrest, hp, hs]

/-- Rows dated on other days leave pass 2 inert. -/
theorem applyExceptions_of_no_today (today : Date) :
    ∀ (cds : List CalendarDateRow) (acc A : Finset String),
      applyExceptions cds today acc = some A →
      (∀ cd ∈ cds, ¬ parseDate cd.date = some today) →
      A = acc := by
  intro cds
  induction cds with
  | nil =>
    intro acc A h _
    simpa [applyExceptions] using h.symm
  | cons cd rest ih =>
    intro acc A h hno
    cases hp : parseDate cd.date with
    | none => simp [applyExceptions, hp] at h
    | some d =>
      simp only [applyExceptions, hp] at h
      have hd : ¬ d = today := by
        intro hdt
        exact hno cd (List.mem_cons_self cd rest) (hdt ▸ hp)
      rw [if_neg hd] at h
      exact ih acc A h (fun c hc => hno c (List.mem_cons_of_mem cd hc))

/-- Pass 1 only ever inserts: its accumulator is preserved. -/
theorem calendarActive_subset (today : Date) :
    ∀ (cal : List CalendarRow) (acc B : Finset String),
      calendarActive cal today acc = some B → acc ⊆ B := by
  intro cal
  induction cal with
  | nil =>
    intro acc B h
    simp only [calendarActive, Option.some.injEq] at h
    subst h
    exact Finset.Subset.refl _
  | cons row rest ih =>
    intro acc B h
    cases hs : parseDate row.start_date with
    | none => simp [calendarActive, hs] at h
    | some s =>
      cases he : parseDate row.end_date with
      | none => simp [calendarActive, hs, he] at h
      | some e =>
        simp only [calendarActive, hs, he] at h
        by_cases hc :
          (dateLe s today && dateLe today e &&
            weekdayFlag row today.weekday == "1") = true
        · rw [if_pos hc] at h
          exact (Finset.subset_insert _ _).trans (ih _ B h)
        · rw [if_neg hc] at h
          exact ih _ B h

/-- A rule whose range contains `today` and whose flag for today's
weekday is `"1"` contributes its service id to the pass-1 set. -/
theorem calendarActive_mem (today : Date) :
    ∀ (cal : List CalendarRow) (acc B : Finset String) (row : CalendarRow)
      (s e : Date), row ∈ cal →
      parseDate row.start_date = some s → parseDate row.end_date = some e →
      dateLe s today = true → dateLe today e = true →
      weekdayFlag row today.weekday = "1" →
      calendarActive cal today acc = some B → row.service_id ∈ B := by
  intro cal
  induction cal with
  | nil =>
    intro acc B row s e hmem
    exact absurd hmem (List.not_mem_nil row)
  | cons x rest ih =>
    intro acc B row s e hmem hps hpe hd1 hd2 hflag h
    rcases List.mem_cons.mp hmem with hx | hx
    · subst hx
      simp only [calendarActive, hps, hpe] at h
      have hc :
          (dateLe s today && dateLe today e &&
            weekdayFlag row today.weekday == "1") = true := by
        simp [hd1, hd2, hflag]
      rw [if_pos hc] at h
      exact calendarActive_subset today rest _ B h (Finset.mem_insert_self _ _)
    · cases hxs : parseDate x.start_date with
      | none => simp [calendarActive, hxs] at h
      | some xs =>
        cases hxe : parseDate x.end_date with
        | none => simp [calendarActive, hxs, hxe] at h
        | some xe =>
          simp only [calendarActive, hxs, hxe] at h
          exact ih _ B row s e hx hps hpe hd1 hd2 hflag h

/-- Splitting `active_service_ids` into its two passes. -/
theorem active_service_ids_eq_some (cal : List CalendarRow)
    (cds : List CalendarDateRow) (today : Date) (A : Finset String)
    (h : active_service_ids cal cds today = some A) :
    ∃ B, calendarActive cal today ∅ = some B ∧
      applyExceptions cds today B = some A := by
  simpa [active_service_ids, Option.bind_eq_some] using h

/-- C1: if both calendar tables are empty, the Service Activation
Resolver returns the empty active-service set, and the Departure
Enumerator's service-membership skip never fires on an empty set (every
trip is eligible with respect to service); the skip fires only when the
active-service set is non-empty. -/
theorem claim_C1 (today : Date) :
    active_service_ids [] [] today = some ∅ ∧
    (∀ sid : String, service_skip ∅ sid = false) ∧
    (∀ (active : Finset String) (sid : String),
      service_skip active sid = true → active ≠ ∅) := by
  refine ⟨rfl, ?_, ?_⟩
  · intro sid
    simp [service_skip]
  · intro active sid h
    simp only [service_skip, Bool.and_eq_true, decide_eq_true_eq] at h
    exact h.1

/-- Witness for C1 at concrete inputs. -/
theorem claim_C1_witness :
    active_service_ids [] [] ⟨2024, 1, 1⟩ = some ∅ ∧
    service_skip ∅ "WD" = false ∧
    ({"WD"} : Finset String) ≠ ∅ :=
  ⟨(claim_C1 ⟨2024, 1, 1⟩).1, (claim_C1 ⟨2024, 1, 1⟩).2.1 "WD",
    (claim_C1 ⟨2024, 1, 1⟩).2.2 {"WD"} "X" (by decide)⟩

/-- C2: an exception dated exactly on the target date overrides the
recurrence-derived membership for its service identifier — when it is
the only exception dated that day for that identifier, kind `"1"` (add)
forces membership even if no rule added it and kind `"2"` (remove)
forces absence regardless of rule membership — while exceptions dated
on any other date leave the resolver's output unchanged (it equals the
recurrence-only pass-1 set). -/
theorem claim_C2 (cal : List CalendarRow) (cds : List CalendarDateRow)
    (today : Date) (A : Finset String)
    (h : active_service_ids cal cds today = some A) :
    (∀ cd ∈ cds, parseDate cd.date = some today →
      (∀ cd' ∈ cds, parseDate cd'.date = some today →
        cd'.service_id = cd.service_id → cd' = cd) →
      ((cd.exception_type = "1" → cd.service_id ∈ A) ∧
       (cd.exception_type = "2" → cd.service_id ∉ A))) ∧
    ((∀ cd ∈ cds, ¬ parseDate cd.date = some today) →
      calendarActive cal today ∅ = some A) := by
  obtain ⟨B, hB, hA⟩ := active_service_ids_eq_some cal cds today A h
  constructor
  · intro cd hmem hp huniq
    have hlo := lastOverride_of_unique today cd.service_id cds cd hmem hp rfl huniq
    have hmemA := applyExceptions_mem today cd.service_id cds B A hA
    constructor
    · intro h1
      have hlof : lastOverride cds today cd.service_id = some true := by
        rw [hlo]; simp [h1]
      exact hmemA.mpr (Or.inl hlof)
    · intro h2 hin
      have hlof : lastOverride cds today cd.service_id = some false := by
        rw [hlo, h2]; simp
      rcases hmemA.mp hin with h' | h'
      · rw [hlof] at h'; exact absurd h' (by simp)
      · rw [hlof] at h'; exact absurd h'.1 (by simp)
  · intro hno
    have := applyExceptions_of_no_today today cds B A hA hno
    subst this
    exact hB

/-- Witness for C2: an add exception with no calendar rule. -/
theorem claim_C2_witness : ("WD" : String) ∈ ({"WD"} : Finset String) :=
  ((claim_C2 [] [⟨"WD", "20240103", "1"⟩] ⟨2024, 1, 3⟩ {"WD"} (by decide)).1
    ⟨"WD", "20240103", "1"⟩ (by decide) (by decide) (by decide)).1 rfl

/-- C3: a calendar rule whose inclusive date range contains the target
date and whose flag for the target date's weekday is `"1"` contributes
its service identifier to the resolver's output; in particular with no
exception dated exactly that day for that identifier, it appears in the
result. -/
theorem claim_C3 (cal : List CalendarRow) (cds : List CalendarDateRow)
    (today s e : Date) (row : CalendarRow) (A : Finset String)
    (h : active_service_ids cal cds today = some A)
    (hrow : row ∈ cal)
    (hps : parseDate row.start_date = some s)
    (hpe : parseDate row.end_date = some e)
    (hd1 : dateLe s today = true) (hd2 : dateLe today e = true)
    (hflag : weekdayFlag row today.weekday = "1")
    (hnoexc : ∀ cd ∈ cds,
      ¬(parseDate cd.date = some today ∧ cd.service_id = row.service_id)) :
    row.service_id ∈ A := by
  obtain ⟨B, hB, hA⟩ := active_service_ids_eq_some cal cds today A h
  have hmemB := calendarActive_mem today cal ∅ B row s e hrow hps hpe hd1 hd2 hflag hB
  have hlo := lastOverride_eq_none today row.service_id cds hnoexc
  exact (applyExceptions_mem today row.service_id cds B A hA).mpr
    (Or.inr ⟨hlo, hmemB⟩)

/-- Witness for C3: the spec's weekday-rule scenario on a Wednesday. -/
theorem claim_C3_witness : ("WD" : String) ∈ ({"HOL", "WD"} : Finset String) :=
  claim_C3 [⟨"WD", "20240101", "20241231", "1", "1", "1", "1", "1", "0", "0"⟩]
    [⟨"HOL", "20240103", "1"⟩] ⟨2024, 1, 3⟩ ⟨2024, 1, 1⟩ ⟨2024, 12, 31⟩
    ⟨"WD", "20240101", "20241231", "1", "1", "1", "1", "1", "0", "0"⟩
    {"HOL", "WD"} rfl (by decide) (by decide) (by decide)
    (by decide) (by decide) (by decide) (by decide)

/-- C9: same-day exceptions for one service identifier apply in table
order, so the last add/remove exception decides final membership (add
after remove leaves the service present, remove after add leaves it
absent), and an exception whose type is neither `"1"` nor `"2"` leaves
the active set unchanged. -/
theorem claim_C9 (cal : List CalendarRow) (cds : List CalendarDateRow)
    (today : Date) (sid : String) (A : Finset String)
    (h : active_service_ids cal cds today = some A) :
    (lastOverride cds today sid = some true → sid ∈ A) ∧
    (lastOverride cds today sid = some false → sid ∉ A) ∧
    (∀ (cd : CalendarDateRow) (rest : List CalendarDateRow)
      (acc : Finset String) (d : Date), parseDate cd.date = some d →
      cd.exception_type ≠ "1" → cd.exception_type ≠ "2" →
      applyExceptions (cd :: rest) today acc = applyExceptions rest today acc) := by
  obtain ⟨B, hB, hA⟩ := active_service_ids_eq_some cal cds today A h
  have hm := applyExceptions_mem today sid cds B A hA
  refine ⟨?_, ?_, ?_⟩
  · intro hlo
    exact hm.mpr (Or.inl hlo)
  · intro hlo hin
    rcases hm.mp hin with h' | h'
    · rw [hlo] at h'; exact absurd h' (by simp)
    · rw [hlo] at h'; exact absurd h'.1 (by simp)
  · intro cd rest acc d hp h1 h2
    simp [applyExceptions, hp, h1, h2]

/-- Witness for C9: remove then add on the same day keeps the service. -/
theorem claim_C9_witness : ("X" : String) ∈ ({"X"} : Finset String) :=
  (claim_C9 [] [⟨"X", "20240105", "2"⟩, ⟨"X", "20240105", "1"⟩]
    ⟨2024, 1, 5⟩ "X" {"X"} (by decide)).1 (by decide)

/-- Every record the loop emits has its instant at or after `now`. -/
theorem processStop_emit_now (e : Env) (st : StopTimeRow) (d : Departure)
    (h : processStop e st = .ok (some d)) : e.now ≤ d.timestamp := by
  unfold processStop at h
  repeat' split at h
  all_goals
    first
    | (simp only [Except.ok.injEq, Option.some.injEq] at h
       subst h
       assumption)
    | exact absurd h (by simp)

/-- No departure collected by the loop is strictly before `now`. -/
theorem collect_ok_now (e : Env) :
    ∀ (sts : List StopTimeRow) (results : List Departure),
      collect e sts = .ok results → ∀ d ∈ results, e.now ≤ d.timestamp := by
  intro sts
  induction sts with
  | nil =>
    intro results h d hd
    simp only [collect, Except.ok.injEq] at h
    subst h
    exact absurd hd (List.not_mem_nil d)
  | cons st rest ih =>
    intro results h d hd
    simp only [collect] at h
    cases hps : processStop e st with
    | error msg => rw [hps] at h; exact absurd h (by simp)
    | ok o =>
      rw [hps] at h
      cases o with
      | none => exact ih results h d hd
      | some dep =>
        cases hc : collect e rest with
        | error m => rw [hc] at h; exact absurd h (by simp)
        | ok ds =>
          rw [hc] at h
          simp only [Except.ok.injEq] at h
          subst h
          rcases List.mem_cons.mp hd with rfl | hd'
          · exact processStop_emit_now e st d hps
          · exact ih ds hc d hd'

/-- C4: the Departure Enumerator's output is sorted non-decreasing by
absolute instant, contains no departure strictly before `now` (one at
exactly `now` passes the `>=` filter), has at most `n` entries, and is
the `n`-smallest prefix of the sorted eligible list: every kept entry's
instant is at most every non-kept eligible entry's instant. -/
theorem claim_C4 (e : Env) (sts : List StopTimeRow) (n : Nat)
    (out : List Departure) (h : enumerator e sts n = .ok out) :
    List.Sorted depLe out ∧
    (∀ d ∈ out, e.now ≤ d.timestamp) ∧
    out.length ≤ n ∧
    (∀ results, collect e sts = .ok results →
      out = (results.insertionSort depLe).take n ∧
      ∀ d ∈ out, ∀ x ∈ results, x ∉ out → depLe d x) := by
  unfold enumerator at h
  cases hc : collect e sts with
  | error m => rw [hc] at h; exact absurd h (by simp)
  | ok results =>
    rw [hc] at h
    simp only [Except.ok.injEq] at h
    subst h
    have hsorted : List.Sorted depLe (results.insertionSort depLe) :=
      List.sorted_insertionSort depLe results
    have hperm : List.Perm (results.insertionSort depLe) results :=
      List.perm_insertionSort depLe results
    have htake : List.Sublist ((results.insertionSort depLe).take n)
        (results.insertionSort depLe) := List.take_sublist n _
    refine ⟨hsorted.sublist htake, ?_, List.length_take_le n _, ?_⟩
    · intro d hd
      exact collect_ok_now e sts results hc d
        (hperm.subset (htake.subset hd))
    · intro results' hc'
      simp only [Except.ok.injEq] at hc'
      subst hc'
      refine ⟨rfl, ?_⟩
      intro d hd x hx hnx
      have hxS : x ∈ results.insertionSort depLe := hperm.mem_iff.mpr hx
      have hxapp : x ∈ (results.insertionSort depLe).take n ++
          (results.insertionSort depLe).drop n := by
        rw [List.take_append_drop]
        exact hxS
      have hxdrop : x ∈ (results.insertionSort depLe).drop n := by
        rcases List.mem_append.mp hxapp with h' | h'
        · exact absurd h' hnx
        · exact h'
      have hpw : List.Pairwise depLe
          ((results.insertionSort depLe).take n ++
            (results.insertionSort depLe).drop n) := by
        rw [List.take_append_drop]
        exact hsorted
      exact (List.pairwise_append.mp hpw).2.2 d hd x hxdrop

/-- Witness for C4 on two eligible departures listed out of order. -/
theorem claim_C4_witness :
    List.Sorted depLe
      [⟨"00:05", 300, "", "", "", "", "S", ""⟩,
       ⟨"00:10", 600, "", "", "", "", "S", ""⟩] :=
  (claim_C4 ⟨{"S"}, [⟨"T", "R", "W", none, none⟩], [], ∅, none, 0, 0⟩
    [⟨"T", "S", "00:10:00", none⟩, ⟨"T", "S", "00:05:00", none⟩] 14
    [⟨"00:05", 300, "", "", "", "", "S", ""⟩,
     ⟨"00:10", 600, "", "", "", "", "S", ""⟩]
    (by decide)).1

/-- C5 (amended): a record whose departure-time field fails the script's
guard — not exactly 8 characters long, or containing no colon — is
skipped and the loop continues with the remaining records.  (As
`claim_C5_cex` shows, an 8-character field containing a colon whose
colon-separated pieces are not integers instead aborts the whole
computation, so the guard does not cover every malformed field.) -/
theorem claim_C5 (e : Env) (st : StopTimeRow) (rest : List StopTimeRow)
    (hbad : st.departure_time.length ≠ 8 ∨
      ¬ st.departure_time.toList.contains ':') :
    collect e (st :: rest) = collect e rest := by
  have hps : processStop e st = .ok none := by
    unfold processStop
    split
    · rfl
    · split
      · rfl
      · split
        · rfl
        · split
          · rfl
          · rfl
  simp [collect, hps]

/-- Counterexample for C5 as stated: the departure-time field
`"1:23:45x"` is malformed (8 characters, but not `"HH:MM:SS"`), passes
the guard, and aborts the whole computation with an error instead of
being skipped. -/
theorem claim_C5_cex :
    collect ⟨{"S"}, [⟨"T", "R", "W", none, none⟩], [], ∅, none, 0, 0⟩
      [⟨"T", "S", "1:23:45x", none⟩] = .error ("ValueError: 1:23:45x") := by
  decide

/-- Witness for C5 (amended) on a three-character field. -/
theorem claim_C5_witness :
    collect ⟨{"S"}, [⟨"T", "R", "W", none, none⟩], [], ∅, none, 0, 0⟩
      [⟨"T", "S", "123", none⟩] = .ok [] :=
  (claim_C5 ⟨{"S"}, [⟨"T", "R", "W", none, none⟩], [], ∅, none, 0, 0⟩
    ⟨"T", "S", "123", none⟩ [] (by decide)).trans rfl

/-- C6: when the stop-name query matches no stop, the computation fails
terminally with an error naming the query and produces no departure
list. -/
theorem claim_C6 (stops : List StopRow) (stop_times : List StopTimeRow)
    (trips : List TripRow) (routes : List RouteRow)
    (calendar : List CalendarRow) (calendar_dates : List CalendarDateRow)
    (today : Date) (nowSec : Int) (query : String) (only_tram : Bool)
    (max_results : Nat) (h : stopIdSet stops query = ∅) :
    run stops stop_times trips routes calendar calendar_dates today nowSec
      query only_tram max_results =
      .error ("Nenalezeny žádné stop_id pro " ++ query ++ ".") := by
  simp [run, h]

/-- Witness for C6: a query matching no stop name. -/
theorem claim_C6_witness :
    run [⟨"A", "Hlavní nádraží"⟩] [] [] [] [] [] ⟨2024, 1, 1⟩ 0 "Janův důl"
      true 14 =
      .error ("Nenalezeny žádné stop_id pro " ++ "Janův důl" ++ ".") :=
  claim_C6 [⟨"A", "Hlavní nádraží"⟩] [] [] [] [] [] ⟨2024, 1, 1⟩ 0 "Janův důl"
    true 14 (by decide)

/-- C7: a well-formed departure time parses to `HH*3600 + MM*60 + SS`
seconds past civil midnight, so hour components at or above 24 roll into
the next calendar day: `"25:10:00"` on the service day with midnight
2024-01-01T00:00 yields the instant 2024-01-02T01:10:00, and the emitted
label is the zero-padded `"HH:MM"` of the computed instant, `"01:10"`. -/
theorem claim_C7 :
    (∀ (t : String) (a b c : List Char) (h m s : Int),
      splitChar ':' t.toList = [a, b, c] → pyIntChars a = some h →
      pyIntChars b = some m → pyIntChars c = some s →
      to_seconds t = some (h * 3600 + m * 60 + s)) ∧
    to_seconds ("25:10:00") = some (25 * 3600 + 10 * 60 + 0) ∧
    (Date.toordinal ⟨2024, 1, 1⟩ : Int) * 86400 + 90600 =
      (Date.toordinal ⟨2024, 1, 2⟩ : Int) * 86400 + (1 * 3600 + 10 * 60 + 0) ∧
    timeLabel ((Date.toordinal ⟨2024, 1, 1⟩ : Int) * 86400 + 90600) = "01:10" := by
  refine ⟨?_, by decide, by decide, by decide⟩
  intro t a b c h m s hsplit ha hb hc
  simp only [to_seconds, hsplit, ha, hb, hc]

/-- Witness for C7's general formula at `"12:34:56"`. -/
theorem claim_C7_witness :
    to_seconds ("12:34:56") = some (12 * 3600 + 34 * 60 + 56) :=
  claim_C7.1 "12:34:56" (['1', '2']) (['3', '4']) (['5', '6']) 12 34 56
    (by decide) (by decide) (by decide) (by decide)

/-- C8: the resolved stop-identifier set contains exactly the stops
whose display name contains the query as a substring case-insensitively
with diacritics compared literally: the `"Janův důl"` query selects both
platform rows, uppercase diacritics still match, and an unaccented name
does not match the accented query. -/
theorem claim_C8 :
    (∀ (stops : List StopRow) (query sid : String),
      sid ∈ stopIdSet stops query ↔
        ∃ s ∈ stops, s.stop_id = sid ∧ nameMatches query s.stop_name = true) ∧
    stopIdSet [⟨"1", "Janův důl, sídliště"⟩, ⟨"2", "Janův důl, smyčka"⟩]
      "Janův důl" = {"1", "2"} ∧
    stopIdSet [⟨"1", "JANŮV DŮL, SÍDLIŠTĚ"⟩] "janův důl" = {"1"} ∧
    stopIdSet [⟨"1", "Januv dul, sidliste"⟩] "Janův důl" = ∅ := by
  refine ⟨?_, by decide, by decide, by decide⟩
  intro stops query sid
  simp only [stopIdSet, List.mem_toFinset, List.mem_map, List.mem_filter]
  constructor
  · rintro ⟨s, ⟨hmem, hmatch⟩, hid⟩
    exact ⟨s, hmem, hid, hmatch⟩
  · rintro ⟨s, hmem, hid, hmatch⟩
    exact ⟨s, ⟨hmem, hmatch⟩, hid⟩

/-- Witness for C8's characterization at a concrete table. -/
theorem claim_C8_witness :
    ("2" : String) ∈
      stopIdSet [⟨"1", "Janův důl, sídliště"⟩, ⟨"2", "Janův důl, smyčka"⟩]
        "Janův důl" :=
  (claim_C8.1 [⟨"1", "Janův důl, sídliště"⟩, ⟨"2", "Janův důl, smyčka"⟩]
    "Janův důl" "2").mpr
    ⟨⟨"2", "Janův důl, smyčka"⟩, by decide, rfl, by decide⟩

/-- C10: with mode filtering enabled (the allow-set built from the same
routes table used for lookups), a StopTime whose Trip references a route
identifier absent from the routes table is skipped entirely, so the
empty-string route-name fallback can only be emitted with filtering
disabled; and with filtering disabled such a record is emitted with both
route name fields equal to the empty string. -/
theorem claim_C10 :
    (∀ (e : Env) (st : StopTimeRow) (trip : TripRow),
      e.allowed = allowedRouteIds e.routes true →
      lookupTrip e.trips st.trip_id = some trip →
      lookupRoute e.routes trip.route_id = none →
      processStop e st = .ok none) ∧
    (∀ (e : Env) (st : StopTimeRow) (trip : TripRow) (sec : Int),
      e.allowed = none →
      st.stop_id ∈ e.stop_ids →
      lookupTrip e.trips st.trip_id = some trip →
      service_skip e.active trip.service_id = false →
      lookupRoute e.routes trip.route_id = none →
      st.departure_time.length = 8 →
      st.departure_time.toList.contains ':' = true →
      to_seconds st.departure_time = some sec →
      e.now ≤ e.midnight + sec →
      processStop e st = .ok (some
        { time := timeLabel (e.midnight + sec)
          timestamp := e.midnight + sec
          route_short_name := ""
          route_long_name := ""
          headsign := trip.trip_headsign.getD ""
          direction_id := trip.direction_id.getD ""
          stop_id := st.stop_id
          stop_sequence := st.stop_sequence.getD "" })) := by
  constructor
  · intro e st trip ha htr hlr
    have hnotmem : trip.route_id ∉
        ((e.routes.filter (fun r => r.route_type == some ("0"))).map
          (fun r => r.route_id)).toFinset := by
      intro hmem
      rw [List.mem_toFinset, List.mem_map] at hmem
      obtain ⟨r, hrf, hrid⟩ := hmem
      have hrmem : r ∈ e.routes := (List.mem_filter.mp hrf).1
      have hnone := List.find?_eq_none.mp hlr r (List.mem_reverse.mpr hrmem)
      rw [hrid] at hnone
      simp at hnone
    have hskip : routeSkip e.allowed trip.route_id = true := by
      rw [ha]
      simp only [allowedRouteIds, if_pos rfl, routeSkip]
      exact decide_eq_true hnotmem
    unfold processStop
    split
    · rfl
    · rw [htr] at *
      simp only [Option.some.injEq] at *
      split
      · rfl
      · rfl
  · intro e st trip sec ha hmem htr hsvc hlr hlen hcol hts hge
    have hcol' : ':' ∈ st.departure_time.data := by simpa using hcol
    unfold processStop
    rw [if_neg (by simp [hmem])]
    simp only [htr]
    rw [if_neg (by simp [hsvc]), if_neg (by simp [routeSkip, ha]),
      if_neg (by simp [hlen, hcol'])]
    simp only [hts]
    rw [if_pos hge]
    simp [routeField, hlr]

/-- Witness for C10: the same trip with a dangling route reference is
skipped when filtering is on and emitted with empty route names when
filtering is off. -/
theorem claim_C10_witness :
    processStop ⟨{"S"}, [⟨"T", "RX", "W", none, none⟩],
        [⟨"R1", some ("0"), none, none⟩], ∅, some {"R1"}, 0, 0⟩
      ⟨"T", "S", "12:00:00", none⟩ = .ok none ∧
    processStop ⟨{"S"}, [⟨"T", "RX", "W", none, none⟩], [], ∅, none, 0, 0⟩
      ⟨"T", "S", "12:00:00", none⟩ =
      .ok (some ⟨"12:00", 43200, "", "", "", "", "S", ""⟩) :=
  ⟨claim_C10.1 ⟨{"S"}, [⟨"T", "RX", "W", none, none⟩],
      [⟨"R1", some ("0"), none, none⟩], ∅, some {"R1"}, 0, 0⟩
    ⟨"T", "S", "12:00:00", none⟩ ⟨"T", "RX", "W", none, none⟩
    (by decide) (by decide) (by decide),
   claim_C10.2 ⟨{"S"}, [⟨"T", "RX", "W", none, none⟩], [], ∅, none, 0, 0⟩
    ⟨"T", "S", "12:00:00", none⟩ ⟨"T", "RX", "W", none, none⟩ 43200
    rfl (by decide) (by decide) (by decide) (by decide) (by decide)
    (by decide) (by decide) (by decide)⟩
